import Mathlib

/-!
Verification of the stream frame queue and cluster-header correction engine
of `src/source/stream/stream.c` (Amazon KVS embedded producer).

The queue state (`Stream_t`), the frame records (`DataFrame_t`), the enqueue
scan with its delta-timestamp correction pass (`Kvs_streamAddDataFrame`),
pop/peek (`prvStreamPop`), the query surface, and the tag-injection
extensions (`Kvs_dataFrameAddTags`, `addTagsAtEnd`) are embedded as pure
Lean functions.  Pointers become `Option`, the mutex becomes an explicit
`lockOk` flag, C `static` variables become an explicitly threaded
`TagGlobals` record, and the byte-level MKV generator (which lives in
`mkv_generator.c`, outside the stream core) is modelled from the spec as a
record of the arguments handed to it.
-/

/-- `TrackType_t`: `TRACK_VIDEO` / `TRACK_AUDIO`. -/
inductive TrackType where
  | video
  | audio
deriving DecidableEq, Repr

/-- `MkvClusterType_t`: `MKV_CLUSTER` / `MKV_SIMPLE_BLOCK`; `unknown` stands
for any other integer value of the C enum, for which `Mkv_getClusterHdrLen`
reports length 0. -/
inductive ClusterType where
  | cluster
  | simpleBlock
  | unknown
deriving DecidableEq, Repr

/-- `DataFrameIn_t`: the caller-supplied frame descriptor.  The payload
pointer `pData` is abstracted to a buffer identity number. -/
structure DataFrameIn where
  pData : Nat
  uDataLen : Nat
  uTimestampMs : Nat
  xTrackType : TrackType
  xClusterType : ClusterType
  bIsKeyFrame : Bool
deriving DecidableEq, Repr

/-- Modelled from the spec: the rendered cluster header is whatever
`HeaderCodec.renderClusterHeader` produces from the tuple
`(clusterKind, payloadLen, trackKind, isKeyFrame, timestampMs, deltaMs16)`;
we record the tuple itself (the codec byte layout is outside this core). -/
structure MkvHdr where
  xClusterType : ClusterType
  uFrameLen : Nat
  xTrackType : TrackType
  bIsKeyFrame : Bool
  uTimestampMs : Nat
  uDeltaTimestampMs : Nat
deriving DecidableEq, Repr

/-- Model of `Mkv_initializeClusterHdr` from `mkv_generator.c` (not part of
the stream core): it renders the header determined by its arguments into the
frame's header buffer; we record the arguments. -/
def Mkv_mkClusterHdr (xClusterType : ClusterType) (uFrameLen : Nat) (xTrackType : TrackType)
    (bIsKeyFrame : Bool) (uTimestampMs : Nat) (uDeltaTimestampMs : Nat) : MkvHdr :=
  { xClusterType := xClusterType
    uFrameLen := uFrameLen
    xTrackType := xTrackType
    bIsKeyFrame := bIsKeyFrame
    uTimestampMs := uTimestampMs
    uDeltaTimestampMs := uDeltaTimestampMs }

/-- Modelled from the spec: `HeaderCodec.clusterHeaderLength(clusterKind)`
returns "byte length or 0/error if unrecognized" and the length is
"determined solely by cluster kind".  The concrete nonzero sizes are
abstract constants. -/
def Mkv_getClusterHdrLen : ClusterType → Nat
  | ClusterType.cluster => 42
  | ClusterType.simpleBlock => 11
  | ClusterType.unknown => 0

/-- Modelled from the spec: the delta field a rendered header encodes.  The
glossary fixes "ClusterHead: ... its header's delta-timestamp is always 0"
(the codec forces the delta of a cluster-head header to zero); a simple
block's header carries the 16-bit delta argument. -/
def MkvHdr.decodedDelta (h : MkvHdr) : Nat :=
  if h.xClusterType = ClusterType.cluster then 0 else h.uDeltaTimestampMs

/-- The C computation `(uint16_t)(ts - clusterTs)` on `uint64_t` operands:
wraparound subtraction truncated to 16 bits.  Since `2^16` divides `2^64`
this is exactly `(ts - clusterTs) mod 2^16` over the integers. -/
def deltaTimestamp (ts clusterTs : Nat) : Nat :=
  (((ts : Int) - (clusterTs : Int)) % 65536).toNat

/-- `DataFrame_t`: a resident frame; `uMkvHdrLen` is the header buffer size
recorded at creation, `pMkvHdr` the rendered header.  `prependedTags` keeps
the tag blocks that `Kvs_dataFrameAddTags` prepends to the header buffer
(empty for every frame the queue itself builds). -/
structure DataFrame where
  xDataFrameIn : DataFrameIn
  uMkvHdrLen : Nat
  pMkvHdr : MkvHdr
  prependedTags : List (List (String × String))
deriving DecidableEq, Repr

/-- `Stream_t` (the lock handle is modelled by the explicit `lockOk` flags
on operations; the unused `xClusterPending` list is not modelled). -/
structure KvsStream where
  uMkvEbmlSegLen : Nat
  uEarliestClusterTimestamp : Nat
  xDataFramePending : List DataFrame
  bHasVideoTrack : Bool
  bHasAudioTrack : Bool
deriving DecidableEq, Repr

/-- Result codes used by the stream core (`kvs/errors.h`).
`nullDereference` marks the undefined behaviour when the code reads through
a NULL pointer before validating it. -/
inductive KvsRes where
  | ok
  | invalidArgument
  | invalidClusterHdrLen
  | outOfMemory
  | lockError
  | notReady
  | nullDereference
deriving DecidableEq, Repr

/-- A `Stream_t` as `Kvs_streamCreate` leaves it: empty pending list and a
zeroed `uEarliestClusterTimestamp` (the struct is `memset` to 0). -/
def streamInit (segLen : Nat) (hasAudio : Bool) : KvsStream :=
  { uMkvEbmlSegLen := segLen
    uEarliestClusterTimestamp := 0
    xDataFramePending := []
    bHasVideoTrack := true
    bHasAudioTrack := hasAudio }

/-- The insert-position test of `Kvs_streamAddDataFrame` (stream.c:242-243):
the new frame goes immediately before `cur` iff `new.ts < cur.ts` or
(`new.ts == cur.ts` and the new frame is on the video track). -/
def goesBefore (dfIn : DataFrameIn) (cur : DataFrame) : Bool :=
  decide (dfIn.uTimestampMs < cur.xDataFrameIn.uTimestampMs) ||
    (decide (dfIn.uTimestampMs = cur.xDataFrameIn.uTimestampMs) &&
      decide (dfIn.xTrackType = TrackType.video))

/-- Whether a frame is a cluster head. -/
def isCH (f : DataFrame) : Bool :=
  decide (f.xDataFrameIn.xClusterType = ClusterType.cluster)

/-- Build the freshly inserted frame: descriptor copied in, header buffer of
length `hdrLen`, header rendered by `Mkv_initializeClusterHdr` with the
given delta (stream.c:229-234 and 271-279). -/
def mkNewFrame (dfIn : DataFrameIn) (hdrLen : Nat) (delta : Nat) : DataFrame :=
  { xDataFrameIn := dfIn
    uMkvHdrLen := hdrLen
    pMkvHdr := (Mkv_mkClusterHdr dfIn.xClusterType dfIn.uDataLen dfIn.xTrackType
        dfIn.bIsKeyFrame dfIn.uTimestampMs delta)
    prependedTags := [] }

/-- The forward scan of `Kvs_streamAddDataFrame` (stream.c:237-269): walk
`pending` keeping the running `uClusterTimestamp` (updated at every cluster
head passed over), insert the new frame before the first frame it
`goesBefore`, else append at the tail.  Returns the new list, the
`bNeedCorrectDeltaTimestamp` flag (set iff a cluster head was inserted
mid-list), and the running cluster timestamp at the stop point. -/
def insertScan (dfIn : DataFrameIn) (hdrLen : Nat) :
    Nat → List DataFrame → List DataFrame × Bool × Nat
  | uClusterTimestamp, [] =>
      ([mkNewFrame dfIn hdrLen (deltaTimestamp dfIn.uTimestampMs uClusterTimestamp)],
        false, uClusterTimestamp)
  | uClusterTimestamp, cur :: rest =>
      if goesBefore dfIn cur then
        if dfIn.xClusterType = ClusterType.cluster then
          (mkNewFrame dfIn hdrLen 0 :: cur :: rest, true, uClusterTimestamp)
        else
          (mkNewFrame dfIn hdrLen (deltaTimestamp dfIn.uTimestampMs uClusterTimestamp)
              :: cur :: rest, false, uClusterTimestamp)
      else
        let uClusterTimestamp' :=
          if isCH cur then cur.xDataFrameIn.uTimestampMs else uClusterTimestamp
        let r := insertScan dfIn hdrLen uClusterTimestamp' rest
        (cur :: r.1, r.2.1, r.2.2)

/-- Re-render one frame's header with a fresh delta (the body of the
correction loop, stream.c:296-305). -/
def rerenderFrame (f : DataFrame) (delta : Nat) : DataFrame :=
  { f with pMkvHdr := (Mkv_mkClusterHdr f.xDataFrameIn.xClusterType f.xDataFrameIn.uDataLen
      f.xDataFrameIn.xTrackType f.xDataFrameIn.bIsKeyFrame f.xDataFrameIn.uTimestampMs delta) }

/-- The delta-correction pass of `Kvs_streamAddDataFrame` (stream.c:281-309):
one full forward walk; at every cluster head reset the running cluster
timestamp and set `bCorrectDeltaTimestampStarted`; once started, re-render
every frame's header with delta `(uint16_t)(ts - clusterTs)`. -/
def correctScan : Nat → Bool → List DataFrame → List DataFrame
  | _, _, [] => []
  | uClusterTimestamp, started, cur :: rest =>
      let uClusterTimestamp' :=
        if isCH cur then cur.xDataFrameIn.uTimestampMs else uClusterTimestamp
      let started' := started || isCH cur
      let cur' :=
        if started' then
          rerenderFrame cur (deltaTimestamp cur.xDataFrameIn.uTimestampMs uClusterTimestamp')
        else cur
      cur' :: correctScan uClusterTimestamp' started' rest

/-- The successful, locked body of `Kvs_streamAddDataFrame`
(stream.c:228-312): run the insert scan from the queue baseline, then, iff a
cluster head was inserted mid-list, the correction pass (seeded with the
running cluster timestamp variable as left by the scan). -/
def addDataFrameLocked (s : KvsStream) (dfIn : DataFrameIn) : KvsStream :=
  let hdrLen := Mkv_getClusterHdrLen dfIn.xClusterType
  let r := insertScan dfIn hdrLen s.uEarliestClusterTimestamp s.xDataFramePending
  let pending' := if r.2.1 then correctScan r.2.2 false r.1 else r.1
  { s with xDataFramePending := pending' }

/-- `Kvs_streamAddDataFrame` (stream.c:191-324) with its failure paths: NULL
stream or descriptor, zero header length, allocation failure, lock failure
each return a NULL handle; the returned `Bool` is "handle is non-NULL". -/
def Kvs_streamAddDataFrameH (h : Option KvsStream) (dfIn : Option DataFrameIn)
    (allocOk lockOk : Bool) : Option KvsStream × Bool :=
  match h, dfIn with
  | some s, some f =>
      if Mkv_getClusterHdrLen f.xClusterType = 0 then (some s, false)
      else if !allocOk then (some s, false)
      else if !lockOk then (some s, false)
      else (some (addDataFrameLocked s f), true)
  | _, _ => (h, false)

/-- `prvStreamPop` (stream.c:58-109), successful-lock path on a non-NULL
stream: peek returns the head without touching the state; pop removes the
head and, iff it is a cluster head, advances `uEarliestClusterTimestamp` to
its timestamp. -/
def prvStreamPop (s : KvsStream) (bPeek : Bool) : KvsStream × Option DataFrame :=
  match s.xDataFramePending with
  | [] => (s, none)
  | f :: rest =>
      if bPeek then (s, some f)
      else
        ({ s with
            xDataFramePending := rest
            uEarliestClusterTimestamp :=
              if isCH f then f.xDataFrameIn.uTimestampMs else s.uEarliestClusterTimestamp },
          some f)

/-- `Kvs_streamPop` / `Kvs_streamPeek` through the NULL and lock checks of
`prvStreamPop`: a NULL handle just logs and returns NULL, a failed lock
leaves the stream untouched and returns NULL. -/
def Kvs_streamPopH (h : Option KvsStream) (bPeek : Bool) (lockOk : Bool) :
    Option KvsStream × Option DataFrame :=
  match h with
  | none => (none, none)
  | some s =>
      if !lockOk then (some s, none)
      else
        let r := prvStreamPop s bPeek
        (some r.1, r.2)

/-- `Kvs_streamIsEmpty` (stream.c:336-358): starts from `true`, only a
successful lock on a non-NULL stream with a non-empty list flips it. -/
def Kvs_streamIsEmpty (h : Option KvsStream) (lockOk : Bool) : Bool :=
  match h with
  | none => true
  | some s => if !lockOk then true else s.xDataFramePending.isEmpty

/-- `Kvs_streamAvailOnTrack` (stream.c:360-395): starts from `false`; on a
locked non-NULL stream, scans for any resident frame on the track. -/
def Kvs_streamAvailOnTrack (h : Option KvsStream) (xTrackType : TrackType) (lockOk : Bool) : Bool :=
  match h with
  | none => false
  | some s =>
      if !lockOk then false
      else s.xDataFramePending.any fun f => decide (f.xDataFrameIn.xTrackType = xTrackType)

/-- `sizeof(Stream_t)`: abstract constant. -/
def kStreamRecordSize : Nat := 96

/-- `sizeof(DataFrame_t)`: abstract constant (the fixed per-frame overhead). -/
def kDataFrameRecordSize : Nat := 72

/-- The accumulation loop of `Kvs_streamMemStatTotal` (stream.c:418-428). -/
def memTotalOf (s : KvsStream) : Nat :=
  s.xDataFramePending.foldl
    (fun acc f => acc + f.xDataFrameIn.uDataLen + kDataFrameRecordSize + f.uMkvHdrLen)
    (kStreamRecordSize + s.uMkvEbmlSegLen)

/-- `Kvs_streamMemStatTotal` (stream.c:397-435).  `outProvided` models a
non-NULL `puMemTotal`; the second component is the value written through it
(`none` = nothing written). -/
def Kvs_streamMemStatTotal (h : Option KvsStream) (outProvided lockOk : Bool) :
    KvsRes × Option Nat :=
  match h with
  | none => (KvsRes.invalidArgument, none)
  | some s =>
      if !outProvided then (KvsRes.invalidArgument, none)
      else if !lockOk then (KvsRes.lockError, none)
      else (KvsRes.ok, some (memTotalOf s))

/-- One queue operation, as issued by a caller holding a valid handle.  An
`add` with an unrecognized cluster kind fails before touching the list. -/
inductive StreamOp where
  | add (dfIn : DataFrameIn)
  | pop
  | peek
deriving DecidableEq, Repr

/-- Apply one operation to the queue state (success paths: lock acquired,
allocation succeeded). -/
def applyOp (s : KvsStream) : StreamOp → KvsStream
  | StreamOp.add dfIn =>
      if Mkv_getClusterHdrLen dfIn.xClusterType = 0 then s else addDataFrameLocked s dfIn
  | StreamOp.pop => (prvStreamPop s false).1
  | StreamOp.peek => (prvStreamPop s true).1

/-- Run a sequence of operations from a freshly created stream. -/
def runOps (segLen : Nat) (hasAudio : Bool) (ops : List StreamOp) : KvsStream :=
  ops.foldl applyOp (streamInit segLen hasAudio)

/-- A metadata tag (`MkvTag_t`): key/value pair. -/
abbrev MkvTag := String × String

/-- The fixed end-of-fragment marker tag appended by both injection paths. -/
def endOfFragmentTag : MkvTag := ("AWS_KINESISVIDEO_END_OF_FRAGMENT", "")

/-- Modelled from the spec: `HeaderCodec.renderTagsBlock(tagList)` returns an
owned byte buffer plus its length; the length function is abstract but
depends only on the tag list. -/
def Mkv_tagsHdrSize (tags : List MkvTag) : Nat :=
  8 + tags.foldl (fun acc t => acc + t.1.length + t.2.length + 16) 0

/-- The C `static` variables of `stream.c` made explicit: `firstClusterSeen`,
`clusterCount`, `tagCounter` (declared in `Kvs_dataFrameAddTags`, lines
568-570; `tagCounter` is never read on a live path) and `calledAlready`
(declared in `addTagsAtEnd`, line 665).  They are process-wide: one single
record exists no matter how many streams exist. -/
structure TagGlobals where
  firstClusterSeen : Bool
  clusterCount : Nat
  tagCounter : Nat
  calledAlready : Bool
deriving DecidableEq, Repr

/-- The statics' initializers. -/
def tagGlobalsInit : TagGlobals :=
  { firstClusterSeen := false, clusterCount := 0, tagCounter := 1, calledAlready := false }

/-- Common result shape of the two tag-injection entry points: the returned
error code, the statics after the call, the frame record after the call
(`none` when the handle was NULL), whether the four output parameters were
written, and whether the call released the frame's prior payload buffer. -/
structure TagCallResult where
  res : KvsRes
  globals : TagGlobals
  frame : Option DataFrame
  outWritten : Bool
  freedPayload : Bool
deriving DecidableEq, Repr

/-- `Kvs_dataFrameAddTags` (stream.c:564-655).  Control flow in source
order: (1) the cluster-kind test at line 573 dereferences the handle before
any NULL check, so a NULL handle is undefined behaviour; (2) a non-cluster
frame returns `KVS_ERRNO_NONE` at once, touching nothing and writing no
output; (3) the NULL checks on the four output pointers (`outPtrsValid`);
(4) on the process-wide first cluster ever seen, only the statics move; (5)
otherwise a tags block (plus the end-of-fragment tag when `endOfStream`) is
prepended to the frame's header buffer, growing `uMkvHdrLen` by the block
size; (6) the four outputs are written.  Allocation is assumed to succeed. -/
def Kvs_dataFrameAddTags (g : TagGlobals) (h : Option DataFrame) (tagsList : List MkvTag)
    (endOfStream : Bool) (outPtrsValid : Bool) : TagCallResult :=
  match h with
  | none =>
      { res := KvsRes.nullDereference, globals := g, frame := none,
        outWritten := false, freedPayload := false }
  | some f =>
      if f.xDataFrameIn.xClusterType ≠ ClusterType.cluster then
        { res := KvsRes.ok, globals := g, frame := some f,
          outWritten := false, freedPayload := false }
      else if !outPtrsValid then
        { res := KvsRes.invalidArgument, globals := g, frame := some f,
          outWritten := false, freedPayload := false }
      else if !g.firstClusterSeen then
        { res := KvsRes.ok,
          globals := { g with firstClusterSeen := true, clusterCount := g.clusterCount + 1 },
          frame := some f, outWritten := true, freedPayload := false }
      else
        let tagsToAdd := if endOfStream then tagsList ++ [endOfFragmentTag] else tagsList
        let f' := { f with
          uMkvHdrLen := Mkv_tagsHdrSize tagsToAdd + f.uMkvHdrLen
          prependedTags := tagsToAdd :: f.prependedTags }
        { res := KvsRes.ok,
          globals := { g with clusterCount := g.clusterCount + 1 },
          frame := some f', outWritten := true, freedPayload := false }

/-- `addTagsAtEnd` (stream.c:657-738).  NULL checks first (handle, tags
list, four output pointers); then the process-wide one-shot `calledAlready`
gate returns `KVS_ERRNO_NONE` doing nothing; otherwise the tag list plus the
end-of-fragment tag is rendered and appended to the frame's payload, the
prior payload buffer is `free`d (line 720) and replaced by the freshly
allocated one (`newBufId`), `uDataLen` grows by the block size, and the four
outputs are written.  Allocation is assumed to succeed. -/
def addTagsAtEnd (g : TagGlobals) (h : Option DataFrame) (tagsListProvided : Bool)
    (tagsList : List MkvTag) (outPtrsValid : Bool) (newBufId : Nat) : TagCallResult :=
  match h with
  | none =>
      { res := KvsRes.invalidArgument, globals := g, frame := none,
        outWritten := false, freedPayload := false }
  | some f =>
      if !tagsListProvided || !outPtrsValid then
        { res := KvsRes.invalidArgument, globals := g, frame := some f,
          outWritten := false, freedPayload := false }
      else if g.calledAlready then
        { res := KvsRes.ok, globals := g, frame := some f,
          outWritten := false, freedPayload := false }
      else
        let extendedTags := tagsList ++ [endOfFragmentTag]
        let f' := { f with
          xDataFrameIn := { f.xDataFrameIn with
            pData := newBufId
            uDataLen := f.xDataFrameIn.uDataLen + Mkv_tagsHdrSize extendedTags } }
        { res := KvsRes.ok,
          globals := { g with calledAlready := true },
          frame := some f', outWritten := true, freedPayload := true }

/-- Which allocations a call released. -/
structure FreedBufs where
  frameRecordAndHdr : Bool
  payload : Bool
deriving DecidableEq, Repr

/-- `Kvs_dataFrameTerminate` (stream.c:741-749): `kvsFree(pxDataFrame)`
releases the frame record together with the header storage allocated inside
it (they are one `kvsMalloc(sizeof(DataFrame_t) + uMkvHdrLen)` block); the
payload buffer is not touched. -/
def Kvs_dataFrameTerminateFrees (h : Option DataFrame) : FreedBufs :=
  match h with
  | none => { frameRecordAndHdr := false, payload := false }
  | some _ => { frameRecordAndHdr := true, payload := false }

/-- The header currently stored for `f` is the one `Mkv_initializeClusterHdr`
renders from `f`'s own descriptor with delta argument `delta`. -/
def hdrFor (f : DataFrame) (delta : Nat) : Prop :=
  f.pMkvHdr = (Mkv_mkClusterHdr f.xDataFrameIn.xClusterType f.xDataFrameIn.uDataLen
      f.xDataFrameIn.xTrackType f.xDataFrameIn.bIsKeyFrame f.xDataFrameIn.uTimestampMs delta)

/-- Spec invariant I2 at the header-argument level, walked down the pending
list: a cluster head's header is rendered from its own descriptor (with some
delta argument; the codec encodes 0 for cluster heads regardless); any other
frame's header is rendered with delta `(uint16_t)(ts - ref)` where `ref` is
the timestamp of the nearest preceding cluster head, or the queue baseline
if none precedes it. -/
def deltaInvariant : Nat → List DataFrame → Prop
  | _, [] => True
  | base, f :: rest =>
      if isCH f then
        (∃ d, hdrFor f d) ∧ deltaInvariant f.xDataFrameIn.uTimestampMs rest
      else
        hdrFor f (deltaTimestamp f.xDataFrameIn.uTimestampMs base) ∧ deltaInvariant base rest

/-- The part of `deltaInvariant` that survives an arbitrary suffix: the
per-frame condition holds for every frame up to (not including) the first
cluster head. -/
def headDeltaInv (base : Nat) : List DataFrame → Prop
  | [] => True
  | f :: rest =>
      isCH f = true ∨
        (isCH f = false ∧ hdrFor f (deltaTimestamp f.xDataFrameIn.uTimestampMs base) ∧
          headDeltaInv base rest)

/-- The claim-facing reading of invariant I2/P2: walking `pending` with the
reference timestamp (nearest preceding cluster head, else the queue
baseline), every cluster head's header decodes to delta 0 and every other
frame's header decodes to `(ts - ref) mod 2^16`, so reference plus decoded
delta reproduces the frame timestamp modulo 2^16. -/
def deltaDecodeSpec : Nat → List DataFrame → Prop
  | _, [] => True
  | base, f :: rest =>
      if isCH f then
        f.pMkvHdr.decodedDelta = 0 ∧ deltaDecodeSpec f.xDataFrameIn.uTimestampMs rest
      else
        (f.pMkvHdr.decodedDelta = deltaTimestamp f.xDataFrameIn.uTimestampMs base ∧
          (base + f.pMkvHdr.decodedDelta) % 65536 = f.xDataFrameIn.uTimestampMs % 65536) ∧
          deltaDecodeSpec base rest

/-- The ordering relation of invariant I1 on frame descriptors: earlier
timestamp, or equal timestamps with no non-video frame ahead of a video
frame. -/
def dfLE (a b : DataFrameIn) : Prop :=
  a.uTimestampMs < b.uTimestampMs ∨
    (a.uTimestampMs = b.uTimestampMs ∧
      (b.xTrackType = TrackType.video → a.xTrackType = TrackType.video))

/-- The running `uClusterTimestamp` after walking over `l` starting from
`init` (updated to the timestamp of every cluster head passed over). -/
def runningClusterTs (init : Nat) (l : List DataFrame) : Nat :=
  l.foldl (fun acc f => if isCH f then f.xDataFrameIn.uTimestampMs else acc) init

/-- The timestamp of the last cluster head in `l`, if any. -/
def lastCHts (l : List DataFrame) : Option Nat :=
  l.foldl (fun acc f => if isCH f then some f.xDataFrameIn.uTimestampMs else acc) none

theorem deltaTimestamp_lt (ts c : Nat) : deltaTimestamp ts c < 65536 := by
  unfold deltaTimestamp
  have h1 : ((ts : Int) - c) % 65536 < 65536 := Int.emod_lt_of_pos _ (by norm_num)
  have h2 : 0 ≤ ((ts : Int) - c) % 65536 := Int.emod_nonneg _ (by norm_num)
  omega

theorem deltaTimestamp_self (ts : Nat) : deltaTimestamp ts ts = 0 := by
  unfold deltaTimestamp
  simp

/-- Adding the truncated delta back to the reference recovers the timestamp
modulo 2^16. -/
theorem deltaTimestamp_add (ts c : Nat) :
    (c + deltaTimestamp ts c) % 65536 = ts % 65536 := by
  unfold deltaTimestamp
  omega

theorem runningClusterTs_nil (init : Nat) : runningClusterTs init [] = init := rfl

theorem runningClusterTs_cons (init : Nat) (f : DataFrame) (l : List DataFrame) :
    runningClusterTs init (f :: l) =
      runningClusterTs (if isCH f then f.xDataFrameIn.uTimestampMs else init) l := rfl

/-- Shape of the insert scan: the new frame lands between the `takeWhile`
and `dropWhile` split of the pending list at the `goesBefore` test; the
correction flag is set iff the new frame is a cluster head that did not go
to the tail; the returned running cluster timestamp is the fold over the
passed-over prefix. -/
theorem insertScan_eq (dfIn : DataFrameIn) (hdrLen : Nat) :
    ∀ (cts : Nat) (l : List DataFrame),
      insertScan dfIn hdrLen cts l =
        (l.takeWhile (fun e => !goesBefore dfIn e) ++
            mkNewFrame dfIn hdrLen
              (if dfIn.xClusterType = ClusterType.cluster ∧
                  l.dropWhile (fun e => !goesBefore dfIn e) ≠ [] then 0
               else deltaTimestamp dfIn.uTimestampMs
                  (runningClusterTs cts (l.takeWhile (fun e => !goesBefore dfIn e)))) ::
            l.dropWhile (fun e => !goesBefore dfIn e),
          decide (dfIn.xClusterType = ClusterType.cluster) &&
            !(l.dropWhile (fun e => !goesBefore dfIn e)).isEmpty,
          runningClusterTs cts (l.takeWhile (fun e => !goesBefore dfIn e))) := by
  intro cts l
  induction l generalizing cts with
  | nil => simp [insertScan, runningClusterTs]
  | cons cur rest ih =>
    by_cases h : goesBefore dfIn cur
    · by_cases hc : dfIn.xClusterType = ClusterType.cluster
      · simp [insertScan, h, hc, List.takeWhile, List.dropWhile, runningClusterTs]
      · simp [insertScan, h, hc, List.takeWhile, List.dropWhile, runningClusterTs]
    · have hb : (!goesBefore dfIn cur) = true := by simp [h]
      simp only [insertScan, h, if_neg (by simp [h] : ¬ (goesBefore dfIn cur = true))]
      rw [ih]
      simp [List.takeWhile_cons, List.dropWhile_cons, hb, runningClusterTs_cons]

theorem correctScan_length (cts : Nat) (started : Bool) (l : List DataFrame) :
    (correctScan cts started l).length = l.length := by
  induction l generalizing cts started with
  | nil => rfl
  | cons f rest ih => simp [correctScan, ih]

theorem rerenderFrame_xDataFrameIn (f : DataFrame) (d : Nat) :
    (rerenderFrame f d).xDataFrameIn = f.xDataFrameIn := rfl

theorem correctScan_map_xDataFrameIn (cts : Nat) (started : Bool) (l : List DataFrame) :
    (correctScan cts started l).map (fun f => f.xDataFrameIn) =
      l.map (fun f => f.xDataFrameIn) := by
  induction l generalizing cts started with
  | nil => rfl
  | cons f rest ih =>
    simp only [correctScan, List.map_cons, ih]
    by_cases hs : (started || isCH f) = true
    · simp [hs, rerenderFrame_xDataFrameIn]
    · simp [hs]

theorem hdrFor_mkNewFrame (dfIn : DataFrameIn) (hl d : Nat) :
    hdrFor (mkNewFrame dfIn hl d) d := rfl

theorem hdrFor_rerenderFrame (f : DataFrame) (d : Nat) :
    hdrFor (rerenderFrame f d) d := rfl

theorem isCH_mkNewFrame (dfIn : DataFrameIn) (hl d : Nat) :
    isCH (mkNewFrame dfIn hl d) = decide (dfIn.xClusterType = ClusterType.cluster) := rfl

theorem isCH_rerenderFrame (f : DataFrame) (d : Nat) :
    isCH (rerenderFrame f d) = isCH f := rfl


/-- After the correction pass has started, every frame walked over satisfies
the delta invariant relative to the running cluster timestamp. -/
theorem correctScan_true_deltaInv : ∀ (cts : Nat) (l : List DataFrame),
    deltaInvariant cts (correctScan cts true l) := by
  intro cts l
  induction l generalizing cts with
  | nil => simp [correctScan, deltaInvariant]
  | cons f rest ih =>
    by_cases hch : isCH f = true
    · simp only [correctScan, hch, Bool.true_or, if_true]
      simp only [deltaInvariant, isCH_rerenderFrame, hch, if_true, rerenderFrame_xDataFrameIn]
      exact ⟨⟨_, hdrFor_rerenderFrame _ _⟩, ih _⟩
    · rw [Bool.not_eq_true] at hch
      simp only [correctScan, hch, Bool.true_or, if_true, if_false]
      simp only [deltaInvariant, isCH_rerenderFrame, hch, Bool.false_eq_true, if_false,
        rerenderFrame_xDataFrameIn]
      exact ⟨hdrFor_rerenderFrame _ _, ih _⟩

/-- The correction pass restores the delta invariant: frames ahead of the
first cluster head only need their old headers to be right relative to the
baseline; everything from the first cluster head on is re-rendered. -/
theorem correctScan_false_deltaInv : ∀ (cts base : Nat) (l : List DataFrame),
    headDeltaInv base l → deltaInvariant base (correctScan cts false l) := by
  intro cts base l
  induction l generalizing cts with
  | nil => intro _; simp [correctScan, deltaInvariant]
  | cons f rest ih =>
    intro hpre
    by_cases hch : isCH f = true
    · simp only [correctScan, hch, Bool.false_or, if_true]
      simp only [deltaInvariant, isCH_rerenderFrame, hch, if_true, rerenderFrame_xDataFrameIn]
      exact ⟨⟨_, hdrFor_rerenderFrame _ _⟩, correctScan_true_deltaInv _ _⟩
    · rw [Bool.not_eq_true] at hch
      rcases hpre with hpre | ⟨_, hhdr, hrest⟩
      · rw [hpre] at hch; cases hch
      · simp only [correctScan, hch, Bool.false_or, Bool.false_eq_true, if_false]
        simp only [deltaInvariant, hch, Bool.false_eq_true, if_false]
        exact ⟨hhdr, ih _ hrest⟩

theorem deltaInvariant_head : ∀ (base : Nat) (l : List DataFrame),
    deltaInvariant base l → headDeltaInv base l := by
  intro base l
  induction l with
  | nil => intro _; trivial
  | cons f rest ih =>
    intro hinv
    by_cases hch : isCH f = true
    · exact Or.inl hch
    · rw [Bool.not_eq_true] at hch
      simp only [deltaInvariant, hch, Bool.false_eq_true, if_false] at hinv
      exact Or.inr ⟨hch, hinv.1, ih hinv.2⟩

/-- The insert scan preserves the delta invariant when no correction is
needed, and leaves at least the pre-first-cluster-head prefix intact when
correction is needed. -/
theorem insertScan_deltaInv (dfIn : DataFrameIn) (hdrLen : Nat) :
    ∀ (base : Nat) (l : List DataFrame), deltaInvariant base l →
      ((insertScan dfIn hdrLen base l).2.1 = false →
        deltaInvariant base (insertScan dfIn hdrLen base l).1) ∧
      ((insertScan dfIn hdrLen base l).2.1 = true →
        headDeltaInv base (insertScan dfIn hdrLen base l).1) := by
  intro base l
  induction l generalizing base with
  | nil =>
    intro _
    refine ⟨fun _ => ?_, fun hneed => by simp [insertScan] at hneed⟩
    by_cases hc : dfIn.xClusterType = ClusterType.cluster
    · simp only [insertScan, deltaInvariant, isCH_mkNewFrame]
      rw [if_pos (by simp [hc])]
      exact ⟨⟨_, hdrFor_mkNewFrame _ _ _⟩, trivial⟩
    · simp only [insertScan, deltaInvariant, isCH_mkNewFrame]
      rw [if_neg (by simpa using hc)]
      exact ⟨hdrFor_mkNewFrame _ _ _, trivial⟩
  | cons cur rest ih =>
    intro hinv
    by_cases hgb : goesBefore dfIn cur = true
    · by_cases hc : dfIn.xClusterType = ClusterType.cluster
      · refine ⟨fun hneed => ?_, fun _ => ?_⟩
        · simp [insertScan, hgb, hc] at hneed
        · simp only [insertScan, hgb, if_true, if_pos hc]
          exact Or.inl (by simp [isCH_mkNewFrame, hc])
      · refine ⟨fun _ => ?_, fun hneed => ?_⟩
        · simp only [insertScan, hgb, if_true, if_neg hc]
          simp only [deltaInvariant, isCH_mkNewFrame]
          rw [if_neg (by simpa using hc)]
          exact ⟨hdrFor_mkNewFrame _ _ _, hinv⟩
        · simp [insertScan, hgb, hc] at hneed
    · rw [Bool.not_eq_true] at hgb
      by_cases hch : isCH cur = true
      · simp only [deltaInvariant, hch, if_true] at hinv
        have ihr := ih cur.xDataFrameIn.uTimestampMs hinv.2
        refine ⟨fun hneed => ?_, fun _ => ?_⟩
        · simp only [insertScan, hgb, Bool.false_eq_true, if_false, hch, if_true] at hneed ⊢
          simp only [deltaInvariant, hch, if_true]
          exact ⟨hinv.1, ihr.1 hneed⟩
        · simp only [insertScan, hgb, Bool.false_eq_true, if_false, hch, if_true]
          exact Or.inl hch
      · rw [Bool.not_eq_true] at hch
        simp only [deltaInvariant, hch, Bool.false_eq_true, if_false] at hinv
        have ihr := ih base hinv.2
        refine ⟨fun hneed => ?_, fun hneed => ?_⟩
        · simp only [insertScan, hgb, hch, Bool.false_eq_true, if_false] at hneed ⊢
          simp only [deltaInvariant, hch, Bool.false_eq_true, if_false]
          exact ⟨hinv.1, ihr.1 hneed⟩
        · simp only [insertScan, hgb, hch, Bool.false_eq_true, if_false] at hneed ⊢
          exact Or.inr ⟨hch, hinv.1, ihr.2 hneed⟩

/-- The delta invariant implies the claim-facing decode reading. -/
theorem deltaInvariant_decode : ∀ (base : Nat) (l : List DataFrame),
    deltaInvariant base l → deltaDecodeSpec base l := by
  intro base l
  induction l generalizing base with
  | nil => intro _; trivial
  | cons f rest ih =>
    intro hinv
    by_cases hch : isCH f = true
    · have hct : f.xDataFrameIn.xClusterType = ClusterType.cluster := by
        simpa [isCH] using hch
      simp only [deltaInvariant, hch, if_true] at hinv
      simp only [deltaDecodeSpec, hch, if_true]
      obtain ⟨⟨d, hf⟩, htail⟩ := hinv
      unfold hdrFor at hf
      refine ⟨?_, ih _ htail⟩
      rw [hf]
      simp [MkvHdr.decodedDelta, Mkv_mkClusterHdr, hct]
    · rw [Bool.not_eq_true] at hch
      have hct : ¬ f.xDataFrameIn.xClusterType = ClusterType.cluster := by
        simpa [isCH] using hch
      simp only [deltaInvariant, hch, Bool.false_eq_true, if_false] at hinv
      simp only [deltaDecodeSpec, hch, Bool.false_eq_true, if_false]
      obtain ⟨hf, htail⟩ := hinv
      unfold hdrFor at hf
      refine ⟨⟨?_, ?_⟩, ih _ htail⟩
      · rw [hf]; simp [MkvHdr.decodedDelta, Mkv_mkClusterHdr, hct]
      · rw [hf]
        simp [MkvHdr.decodedDelta, Mkv_mkClusterHdr, hct]
        exact deltaTimestamp_add _ _

/-- Enqueue preserves the delta invariant (the baseline does not move). -/
theorem addDataFrameLocked_deltaInv (s : KvsStream) (dfIn : DataFrameIn)
    (hinv : deltaInvariant s.uEarliestClusterTimestamp s.xDataFramePending) :
    deltaInvariant (addDataFrameLocked s dfIn).uEarliestClusterTimestamp
      (addDataFrameLocked s dfIn).xDataFramePending := by
  have h := insertScan_deltaInv dfIn (Mkv_getClusterHdrLen dfIn.xClusterType)
      s.uEarliestClusterTimestamp s.xDataFramePending hinv
  cases hb : (insertScan dfIn (Mkv_getClusterHdrLen dfIn.xClusterType)
      s.uEarliestClusterTimestamp s.xDataFramePending).2.1 with
  | false => simpa [addDataFrameLocked, hb] using h.1 hb
  | true =>
    simp only [addDataFrameLocked, hb, if_true]
    exact correctScan_false_deltaInv _ _ _ (h.2 hb)

/-- Pop and peek preserve the delta invariant: removing a non-cluster head
leaves all references alone; removing a cluster head makes its timestamp the
new baseline, exactly the reference the remaining frames already use. -/
theorem prvStreamPop_deltaInv (s : KvsStream) (bPeek : Bool)
    (hinv : deltaInvariant s.uEarliestClusterTimestamp s.xDataFramePending) :
    deltaInvariant (prvStreamPop s bPeek).1.uEarliestClusterTimestamp
      (prvStreamPop s bPeek).1.xDataFramePending := by
  cases hl : s.xDataFramePending with
  | nil => simp [prvStreamPop, hl, deltaInvariant]
  | cons f rest =>
    cases bPeek with
    | true => simpa [prvStreamPop, hl] using hinv
    | false =>
      rw [hl] at hinv
      by_cases hch : isCH f = true
      · simp only [deltaInvariant, hch, if_true] at hinv
        simpa [prvStreamPop, hl, hch] using hinv.2
      · rw [Bool.not_eq_true] at hch
        simp only [deltaInvariant, hch, Bool.false_eq_true, if_false] at hinv
        simpa [prvStreamPop, hl, hch] using hinv.2

theorem applyOp_deltaInv (s : KvsStream) (op : StreamOp)
    (hinv : deltaInvariant s.uEarliestClusterTimestamp s.xDataFramePending) :
    deltaInvariant (applyOp s op).uEarliestClusterTimestamp
      (applyOp s op).xDataFramePending := by
  cases op with
  | add dfIn =>
    by_cases h0 : Mkv_getClusterHdrLen dfIn.xClusterType = 0
    · simpa [applyOp, h0] using hinv
    · simpa [applyOp, h0] using addDataFrameLocked_deltaInv s dfIn hinv
  | pop => exact prvStreamPop_deltaInv s false hinv
  | peek => exact prvStreamPop_deltaInv s true hinv

theorem foldl_applyOp_deltaInv (ops : List StreamOp) :
    ∀ s : KvsStream, deltaInvariant s.uEarliestClusterTimestamp s.xDataFramePending →
      deltaInvariant (ops.foldl applyOp s).uEarliestClusterTimestamp
        (ops.foldl applyOp s).xDataFramePending := by
  induction ops with
  | nil => intro s h; exact h
  | cons op rest ih => intro s h; exact ih _ (applyOp_deltaInv s op h)

/-- Every reachable queue state satisfies the delta invariant. -/
theorem runOps_deltaInv (segLen : Nat) (hasAudio : Bool) (ops : List StreamOp) :
    deltaInvariant (runOps segLen hasAudio ops).uEarliestClusterTimestamp
      (runOps segLen hasAudio ops).xDataFramePending := by
  exact foldl_applyOp_deltaInv ops _ trivial

theorem dfLE_trans {a b c : DataFrameIn} (h1 : dfLE a b) (h2 : dfLE b c) : dfLE a c := by
  rcases h1 with h1 | ⟨h1e, h1v⟩ <;> rcases h2 with h2 | ⟨h2e, h2v⟩
  · exact Or.inl (h1.trans h2)
  · exact Or.inl (h2e ▸ h1)
  · exact Or.inl (h1e ▸ h2)
  · exact Or.inr ⟨h1e.trans h2e, fun hv => h1v (h2v hv)⟩

/-- A frame the scan passed over sorts no later than the new frame. -/
theorem dfLE_of_not_goesBefore {dfIn : DataFrameIn} {cur : DataFrame}
    (h : goesBefore dfIn cur = false) : dfLE cur.xDataFrameIn dfIn := by
  unfold goesBefore at h
  simp only [Bool.or_eq_false_iff, Bool.and_eq_false_iff, decide_eq_false_iff_not] at h
  rcases h with ⟨hlt, hor⟩
  rcases Nat.lt_or_ge cur.xDataFrameIn.uTimestampMs dfIn.uTimestampMs with hc | hc
  · exact Or.inl hc
  · have heq : cur.xDataFrameIn.uTimestampMs = dfIn.uTimestampMs := by omega
    refine Or.inr ⟨heq, fun hv => ?_⟩
    rcases hor with hor | hor
    · exact absurd heq.symm hor
    · exact absurd hv hor

/-- The new frame sorts no later than the frame it was inserted before. -/
theorem dfLE_of_goesBefore {dfIn : DataFrameIn} {e : DataFrame}
    (h : goesBefore dfIn e = true) : dfLE dfIn e.xDataFrameIn := by
  unfold goesBefore at h
  simp only [Bool.or_eq_true, Bool.and_eq_true, decide_eq_true_eq] at h
  rcases h with h | ⟨heq, hv⟩
  · exact Or.inl h
  · exact Or.inr ⟨heq, fun _ => hv⟩

/-- The new frame sorts no later than anything at or past its insertion
point. -/
theorem dfLE_goesBefore_trans {dfIn : DataFrameIn} {e : DataFrame} {b : DataFrameIn}
    (h : goesBefore dfIn e = true) (h2 : dfLE e.xDataFrameIn b) : dfLE dfIn b :=
  dfLE_trans (dfLE_of_goesBefore h) h2

theorem mem_takeWhile_pred {p : DataFrame → Bool} :
    ∀ {l : List DataFrame} {a : DataFrame}, a ∈ l.takeWhile p → p a = true := by
  intro l
  induction l with
  | nil => intro a h; simp [List.takeWhile] at h
  | cons f rest ih =>
    intro a h
    cases hp : p f with
    | false => rw [List.takeWhile_cons, hp] at h; simp at h
    | true =>
      simp only [List.takeWhile_cons, hp, if_true, List.mem_cons] at h
      rcases h with heq | h
      · exact heq ▸ hp
      · exact ih h

theorem dropWhile_head_not {p : DataFrame → Bool} :
    ∀ {l : List DataFrame} {e : DataFrame} {tl : List DataFrame},
      l.dropWhile p = e :: tl → p e = false := by
  intro l
  induction l with
  | nil => intro e tl h; simp [List.dropWhile] at h
  | cons f rest ih =>
    intro e tl h
    cases hp : p f with
    | false =>
      rw [List.dropWhile_cons, hp] at h
      simp only [Bool.false_eq_true, if_false] at h
      cases h
      exact hp
    | true =>
      rw [List.dropWhile_cons, hp] at h
      simp only [if_true] at h
      exact ih h

theorem dropWhile_ne_nil_iff {p : DataFrame → Bool} :
    ∀ {l : List DataFrame}, l.dropWhile p ≠ [] ↔ ∃ e ∈ l, p e = false := by
  intro l
  induction l with
  | nil => simp [List.dropWhile]
  | cons f rest ih =>
    cases hp : p f with
    | false =>
      simp only [List.dropWhile_cons, hp, Bool.false_eq_true, if_false]
      constructor
      · intro _; exact ⟨f, List.mem_cons_self f rest, hp⟩
      · intro _; simp
    | true =>
      simp only [List.dropWhile_cons, hp, if_true]
      rw [ih]
      constructor
      · rintro ⟨e, he, hpe⟩; exact ⟨e, List.mem_cons_of_mem f he, hpe⟩
      · rintro ⟨e, he, hpe⟩
        rcases List.mem_cons.mp he with rfl | he
        · rw [hp] at hpe; cases hpe
        · exact ⟨e, he, hpe⟩

theorem mkNewFrame_xDataFrameIn (dfIn : DataFrameIn) (hl d : Nat) :
    (mkNewFrame dfIn hl d).xDataFrameIn = dfIn := rfl

/-- The insert scan preserves invariant I1: the result is again sorted by
(timestamp, video-first tie-break). -/
theorem insertScan_pairwise (dfIn : DataFrameIn) (hdrLen cts : Nat) (l : List DataFrame)
    (h : List.Pairwise dfLE (l.map (fun f => f.xDataFrameIn))) :
    List.Pairwise dfLE (((insertScan dfIn hdrLen cts l).1).map (fun f => f.xDataFrameIn)) := by
  rw [insertScan_eq]
  rw [List.map_append, List.map_cons, mkNewFrame_xDataFrameIn]
  have hsplit : l.map (fun f => f.xDataFrameIn) =
      (l.takeWhile (fun e => !goesBefore dfIn e)).map (fun f => f.xDataFrameIn) ++
        (l.dropWhile (fun e => !goesBefore dfIn e)).map (fun f => f.xDataFrameIn) := by
    rw [← List.map_append, List.takeWhile_append_dropWhile]
  rw [hsplit] at h
  obtain ⟨h1, h2, h12⟩ := List.pairwise_append.mp h
  refine List.pairwise_append.mpr ⟨h1, ?_, ?_⟩
  · refine List.pairwise_cons.mpr ⟨?_, h2⟩
    intro b hb
    cases hdw : l.dropWhile (fun e => !goesBefore dfIn e) with
    | nil => rw [hdw] at hb; simp at hb
    | cons e tl =>
      have hpe : (!goesBefore dfIn e) = false := dropWhile_head_not hdw
      have hge : goesBefore dfIn e = true := by simpa using hpe
      rw [hdw, List.map_cons] at hb h2
      rcases List.mem_cons.mp hb with heq | hb
      · exact heq ▸ dfLE_of_goesBefore hge
      · exact dfLE_goesBefore_trans hge ((List.pairwise_cons.mp h2).1 b hb)
  · intro a ha b hb
    obtain ⟨fa, hfa, rfl⟩ := List.mem_map.mp ha
    have hpa : (!goesBefore dfIn fa) = true := mem_takeWhile_pred hfa
    have hga : goesBefore dfIn fa = false := by simpa using hpa
    rcases List.mem_cons.mp hb with heq | hb
    · exact heq ▸ dfLE_of_not_goesBefore hga
    · exact h12 _ ha b hb

/-- Enqueue preserves invariant I1 (the correction pass only rewrites
headers, not descriptors). -/
theorem addDataFrameLocked_pairwise (s : KvsStream) (dfIn : DataFrameIn)
    (h : List.Pairwise dfLE (s.xDataFramePending.map (fun f => f.xDataFrameIn))) :
    List.Pairwise dfLE
      ((addDataFrameLocked s dfIn).xDataFramePending.map (fun f => f.xDataFrameIn)) := by
  have hs := insertScan_pairwise dfIn (Mkv_getClusterHdrLen dfIn.xClusterType)
      s.uEarliestClusterTimestamp s.xDataFramePending h
  cases hb : (insertScan dfIn (Mkv_getClusterHdrLen dfIn.xClusterType)
      s.uEarliestClusterTimestamp s.xDataFramePending).2.1 with
  | false => simpa [addDataFrameLocked, hb] using hs
  | true =>
    simp only [addDataFrameLocked, hb, if_true]
    rw [correctScan_map_xDataFrameIn]
    exact hs

theorem prvStreamPop_pairwise (s : KvsStream) (bPeek : Bool)
    (h : List.Pairwise dfLE (s.xDataFramePending.map (fun f => f.xDataFrameIn))) :
    List.Pairwise dfLE
      ((prvStreamPop s bPeek).1.xDataFramePending.map (fun f => f.xDataFrameIn)) := by
  cases hl : s.xDataFramePending with
  | nil => simp [prvStreamPop, hl]
  | cons f rest =>
    cases bPeek with
    | true => simpa [prvStreamPop, hl] using h
    | false =>
      rw [hl, List.map_cons] at h
      simpa [prvStreamPop, hl] using (List.pairwise_cons.mp h).2

theorem applyOp_pairwise (s : KvsStream) (op : StreamOp)
    (h : List.Pairwise dfLE (s.xDataFramePending.map (fun f => f.xDataFrameIn))) :
    List.Pairwise dfLE ((applyOp s op).xDataFramePending.map (fun f => f.xDataFrameIn)) := by
  cases op with
  | add dfIn =>
    by_cases h0 : Mkv_getClusterHdrLen dfIn.xClusterType = 0
    · simpa [applyOp, h0] using h
    · simpa [applyOp, h0] using addDataFrameLocked_pairwise s dfIn h
  | pop => exact prvStreamPop_pairwise s false h
  | peek => exact prvStreamPop_pairwise s true h

theorem foldl_applyOp_pairwise (ops : List StreamOp) :
    ∀ s : KvsStream, List.Pairwise dfLE (s.xDataFramePending.map (fun f => f.xDataFrameIn)) →
      List.Pairwise dfLE
        ((ops.foldl applyOp s).xDataFramePending.map (fun f => f.xDataFrameIn)) := by
  induction ops with
  | nil => intro s h; exact h
  | cons op rest ih => intro s h; exact ih _ (applyOp_pairwise s op h)

/-- Placeholder frame for positional lookups. -/
def dfltFrame : DataFrame :=
  mkNewFrame { pData := 0, uDataLen := 0, uTimestampMs := 0, xTrackType := TrackType.video,
               xClusterType := ClusterType.simpleBlock, bIsKeyFrame := false } 0 0

theorem lastCHts_from_some (c : Nat) : ∀ l : List DataFrame,
    List.foldl (fun acc f => if isCH f then some f.xDataFrameIn.uTimestampMs else acc)
      (some c) l = some (runningClusterTs c l) := by
  intro l
  induction l generalizing c with
  | nil => rfl
  | cons f rest ih =>
    by_cases hch : isCH f = true
    · simp [List.foldl_cons, hch, runningClusterTs_cons, ih]
    · rw [Bool.not_eq_true] at hch
      simp [List.foldl_cons, hch, runningClusterTs_cons, ih]

theorem lastCHts_cons (f : DataFrame) (l : List DataFrame) :
    lastCHts (f :: l) =
      if isCH f then some (runningClusterTs f.xDataFrameIn.uTimestampMs l) else lastCHts l := by
  by_cases hch : isCH f = true
  · simp only [lastCHts, List.foldl_cons, hch, if_true]
    exact lastCHts_from_some _ l
  · rw [Bool.not_eq_true] at hch
    simp [lastCHts, List.foldl_cons, hch]

theorem correctScan_true_getD : ∀ (l : List DataFrame) (cts i : Nat), i < l.length →
    (correctScan cts true l).getD i dfltFrame =
      rerenderFrame (l.getD i dfltFrame)
        (deltaTimestamp (l.getD i dfltFrame).xDataFrameIn.uTimestampMs
          (runningClusterTs cts (l.take (i + 1)))) := by
  intro l
  induction l with
  | nil => intro cts i h; simp at h
  | cons f rest ih =>
    intro cts i h
    cases i with
    | zero =>
      by_cases hch : isCH f = true
      · simp [correctScan, hch, runningClusterTs_cons, runningClusterTs_nil]
      · rw [Bool.not_eq_true] at hch
        simp [correctScan, hch, runningClusterTs_cons, runningClusterTs_nil]
    | succ j =>
      have hj : j < rest.length := by simpa using h
      by_cases hch : isCH f = true
      · simp only [correctScan, hch, Bool.true_or, if_true, List.getD_cons_succ,
          List.take_succ_cons, runningClusterTs_cons]
        exact ih _ j hj
      · rw [Bool.not_eq_true] at hch
        simp only [correctScan, hch, Bool.true_or, if_true, List.getD_cons_succ,
          List.take_succ_cons, runningClusterTs_cons, Bool.false_eq_true, if_false]
        exact ih _ j hj

theorem correctScan_false_getD : ∀ (l : List DataFrame) (cts i : Nat), i < l.length →
    (correctScan cts false l).getD i dfltFrame =
      (match lastCHts (l.take (i + 1)) with
       | none => l.getD i dfltFrame
       | some r => rerenderFrame (l.getD i dfltFrame)
           (deltaTimestamp (l.getD i dfltFrame).xDataFrameIn.uTimestampMs r)) := by
  intro l
  induction l with
  | nil => intro cts i h; simp at h
  | cons f rest ih =>
    intro cts i h
    cases i with
    | zero =>
      by_cases hch : isCH f = true
      · simp [correctScan, hch, lastCHts_cons, runningClusterTs_nil]
      · rw [Bool.not_eq_true] at hch
        simp [correctScan, hch, lastCHts_cons, lastCHts]
    | succ j =>
      have hj : j < rest.length := by simpa using h
      by_cases hch : isCH f = true
      · simp only [correctScan, hch, Bool.false_or, if_true, List.getD_cons_succ,
          List.take_succ_cons, lastCHts_cons]
        exact correctScan_true_getD rest _ j hj
      · rw [Bool.not_eq_true] at hch
        simp only [correctScan, hch, Bool.false_or, Bool.false_eq_true, if_false,
          List.getD_cons_succ, List.take_succ_cons, lastCHts_cons]
        exact ih _ j hj

theorem insertScan_fst_length (dfIn : DataFrameIn) (hdrLen cts : Nat) (l : List DataFrame) :
    ((insertScan dfIn hdrLen cts l).1).length = l.length + 1 := by
  rw [insertScan_eq]
  have hsplit := congrArg List.length
    (List.takeWhile_append_dropWhile (p := fun e => !goesBefore dfIn e) (l := l))
  simp only [List.length_append] at hsplit
  simp [List.length_append]
  omega

theorem addDataFrameLocked_length (s : KvsStream) (dfIn : DataFrameIn) :
    (addDataFrameLocked s dfIn).xDataFramePending.length =
      s.xDataFramePending.length + 1 := by
  cases hb : (insertScan dfIn (Mkv_getClusterHdrLen dfIn.xClusterType)
      s.uEarliestClusterTimestamp s.xDataFramePending).2.1 with
  | false => simp [addDataFrameLocked, hb, insertScan_fst_length]
  | true => simp [addDataFrameLocked, hb, correctScan_length, insertScan_fst_length]

/-- Enqueue at the descriptor level: the new descriptor lands exactly
between the `takeWhile` and `dropWhile` split at the `goesBefore` test. -/
theorem addDataFrameLocked_map (s : KvsStream) (dfIn : DataFrameIn) :
    (addDataFrameLocked s dfIn).xDataFramePending.map (fun f => f.xDataFrameIn) =
      (s.xDataFramePending.takeWhile (fun e => !goesBefore dfIn e)).map
          (fun f => f.xDataFrameIn) ++
        dfIn :: (s.xDataFramePending.dropWhile (fun e => !goesBefore dfIn e)).map
          (fun f => f.xDataFrameIn) := by
  cases hb : (insertScan dfIn (Mkv_getClusterHdrLen dfIn.xClusterType)
      s.uEarliestClusterTimestamp s.xDataFramePending).2.1 with
  | false =>
    simp only [addDataFrameLocked, hb, Bool.false_eq_true, if_false]
    rw [insertScan_eq]
    simp [mkNewFrame_xDataFrameIn]
  | true =>
    simp only [addDataFrameLocked, hb, if_true]
    rw [correctScan_map_xDataFrameIn, insertScan_eq]
    simp [mkNewFrame_xDataFrameIn]

theorem getD_append_length (l1 l2 : List DataFrame) (a dflt : DataFrame) :
    (l1 ++ a :: l2).getD l1.length dflt = a := by
  induction l1 with
  | nil => rfl
  | cons x xs ih => simpa using ih

/-- The element the scan placed at the insertion index is the freshly built
frame (with the delta the scan computed for it). -/
theorem insertScan_getD_new (dfIn : DataFrameIn) (hdrLen cts : Nat) (l : List DataFrame) :
    ((insertScan dfIn hdrLen cts l).1).getD
        (l.takeWhile (fun e => !goesBefore dfIn e)).length dfltFrame =
      mkNewFrame dfIn hdrLen
        (if dfIn.xClusterType = ClusterType.cluster ∧
            l.dropWhile (fun e => !goesBefore dfIn e) ≠ [] then 0
         else deltaTimestamp dfIn.uTimestampMs
            (runningClusterTs cts (l.takeWhile (fun e => !goesBefore dfIn e)))) := by
  rw [insertScan_eq]
  exact getD_append_length _ _ _ _

theorem length_takeWhile_le {p : DataFrame → Bool} :
    ∀ l : List DataFrame, (l.takeWhile p).length ≤ l.length := by
  intro l
  induction l with
  | nil => simp
  | cons f rest ih =>
    rw [List.takeWhile_cons]
    cases p f with
    | false => simp
    | true => simpa using Nat.succ_le_succ ih

theorem length_takeWhile_lt (dfIn : DataFrameIn) (l : List DataFrame) :
    (l.takeWhile (fun e => !goesBefore dfIn e)).length < l.length + 1 :=
  Nat.lt_succ_of_le (length_takeWhile_le l)

/-- The frame at the insertion index after a full enqueue is fully rendered
from the enqueued descriptor. -/
theorem addDataFrameLocked_new_frame (s : KvsStream) (dfIn : DataFrameIn) :
    ∃ d, hdrFor ((addDataFrameLocked s dfIn).xDataFramePending.getD
          (s.xDataFramePending.takeWhile (fun e => !goesBefore dfIn e)).length dfltFrame) d ∧
      ((addDataFrameLocked s dfIn).xDataFramePending.getD
          (s.xDataFramePending.takeWhile (fun e => !goesBefore dfIn e)).length
          dfltFrame).xDataFrameIn = dfIn := by
  have hnew := insertScan_getD_new dfIn (Mkv_getClusterHdrLen dfIn.xClusterType)
      s.uEarliestClusterTimestamp s.xDataFramePending
  cases hb : (insertScan dfIn (Mkv_getClusterHdrLen dfIn.xClusterType)
      s.uEarliestClusterTimestamp s.xDataFramePending).2.1 with
  | false =>
    simp only [addDataFrameLocked, hb, Bool.false_eq_true, if_false]
    rw [hnew]
    exact ⟨_, hdrFor_mkNewFrame _ _ _, rfl⟩
  | true =>
    simp only [addDataFrameLocked, hb, if_true]
    have hlt : (s.xDataFramePending.takeWhile (fun e => !goesBefore dfIn e)).length <
        ((insertScan dfIn (Mkv_getClusterHdrLen dfIn.xClusterType)
          s.uEarliestClusterTimestamp s.xDataFramePending).1).length := by
      rw [insertScan_fst_length]
      exact length_takeWhile_lt dfIn s.xDataFramePending
    rw [correctScan_false_getD _ _ _ hlt]
    cases hm : lastCHts (((insertScan dfIn (Mkv_getClusterHdrLen dfIn.xClusterType)
        s.uEarliestClusterTimestamp s.xDataFramePending).1).take
          ((s.xDataFramePending.takeWhile (fun e => !goesBefore dfIn e)).length + 1)) with
    | none =>
      simp only []
      rw [hnew]
      exact ⟨_, hdrFor_mkNewFrame _ _ _, rfl⟩
    | some r =>
      simp only []
      rw [hnew]
      exact ⟨_, hdrFor_rerenderFrame _ _, rfl⟩

theorem runningClusterTs_no_CH : ∀ (l : List DataFrame) (c : Nat),
    (∀ e ∈ l, isCH e = false) → runningClusterTs c l = c := by
  intro l
  induction l with
  | nil => intro c _; rfl
  | cons f rest ih =>
    intro c hall
    rw [runningClusterTs_cons, hall f (List.mem_cons_self f rest)]
    exact ih c fun e he => hall e (List.mem_cons_of_mem f he)

theorem memTotalOf_eq (s : KvsStream) :
    memTotalOf s = kStreamRecordSize + s.uMkvEbmlSegLen +
      (s.xDataFramePending.map
        (fun f => f.xDataFrameIn.uDataLen + kDataFrameRecordSize + f.uMkvHdrLen)).sum := by
  have key : ∀ (l : List DataFrame) (init : Nat),
      l.foldl (fun acc f => acc + f.xDataFrameIn.uDataLen + kDataFrameRecordSize + f.uMkvHdrLen)
          init =
        init + (l.map
          (fun f => f.xDataFrameIn.uDataLen + kDataFrameRecordSize + f.uMkvHdrLen)).sum := by
    intro l
    induction l with
    | nil => intro init; simp
    | cons f rest ih =>
      intro init
      rw [List.foldl_cons, ih, List.map_cons, List.sum_cons]
      omega
  exact key _ _

theorem mem_takeWhile_mem {p : DataFrame → Bool} :
    ∀ {l : List DataFrame} {a : DataFrame}, a ∈ l.takeWhile p → a ∈ l := by
  intro l
  induction l with
  | nil => intro a h; simp [List.takeWhile] at h
  | cons f rest ih =>
    intro a h
    rw [List.takeWhile_cons] at h
    cases hp : p f with
    | false => rw [hp] at h; simp at h
    | true =>
      rw [hp] at h
      simp only [if_true, List.mem_cons] at h
      rcases h with heq | h
      · exact heq ▸ List.mem_cons_self _ _
      · exact List.mem_cons_of_mem _ (ih h)

theorem mem_dropWhile_mem {p : DataFrame → Bool} :
    ∀ {l : List DataFrame} {a : DataFrame}, a ∈ l.dropWhile p → a ∈ l := by
  intro l
  induction l with
  | nil => intro a h; simp [List.dropWhile] at h
  | cons f rest ih =>
    intro a h
    rw [List.dropWhile_cons] at h
    cases hp : p f with
    | false =>
      rw [hp] at h
      simp only [Bool.false_eq_true, if_false] at h
      exact h
    | true =>
      rw [hp] at h
      simp only [if_true] at h
      exact List.mem_cons_of_mem _ (ih h)

/-- Queue operations never invent payload views: every resident descriptor
after an operation either was already resident or is the one being
enqueued. -/
theorem applyOp_payload_origin (s : KvsStream) (op : StreamOp) (f' : DataFrame)
    (hmem : f' ∈ (applyOp s op).xDataFramePending) :
    (∃ f ∈ s.xDataFramePending, f'.xDataFrameIn = f.xDataFrameIn) ∨
      (∃ dfIn, op = StreamOp.add dfIn ∧ f'.xDataFrameIn = dfIn) := by
  cases op with
  | pop =>
    left
    cases hl : s.xDataFramePending with
    | nil => simp [applyOp, prvStreamPop, hl] at hmem
    | cons f rest =>
      simp [applyOp, prvStreamPop, hl] at hmem
      exact ⟨f', List.mem_cons_of_mem f hmem, rfl⟩
  | peek =>
    left
    cases hl : s.xDataFramePending with
    | nil => simp [applyOp, prvStreamPop, hl] at hmem
    | cons f rest =>
      simp [applyOp, prvStreamPop, hl] at hmem
      rcases hmem with heq | hmem
      · exact ⟨f, List.mem_cons_self f rest, by rw [heq]⟩
      · exact ⟨f', List.mem_cons_of_mem f hmem, rfl⟩
  | add dfIn =>
    by_cases h0 : Mkv_getClusterHdrLen dfIn.xClusterType = 0
    · left
      rw [applyOp] at hmem
      simp only [h0, if_true] at hmem
      exact ⟨f', hmem, rfl⟩
    · have hmap : f'.xDataFrameIn ∈
          (addDataFrameLocked s dfIn).xDataFramePending.map (fun f => f.xDataFrameIn) := by
        rw [applyOp] at hmem
        simp only [h0, if_false] at hmem
        exact List.mem_map_of_mem _ hmem
      rw [addDataFrameLocked_map] at hmap
      rcases List.mem_append.mp hmap with hmap | hmap
      · obtain ⟨e, he, heq⟩ := List.mem_map.mp hmap
        exact Or.inl ⟨e, mem_takeWhile_mem he, heq.symm⟩
      · rcases List.mem_cons.mp hmap with heq | hmap
        · exact Or.inr ⟨dfIn, rfl, heq⟩
        · obtain ⟨e, he, heq⟩ := List.mem_map.mp hmap
          exact Or.inl ⟨e, mem_dropWhile_mem he, heq.symm⟩

/-- The correction flag is set exactly when the new frame is a cluster head
that was inserted before some existing frame (i.e. not tail-appended). -/
theorem insertScan_need_iff (dfIn : DataFrameIn) (hdrLen cts : Nat) (l : List DataFrame) :
    (insertScan dfIn hdrLen cts l).2.1 = true ↔
      (dfIn.xClusterType = ClusterType.cluster ∧ ∃ e ∈ l, goesBefore dfIn e = true) := by
  rw [insertScan_eq]
  simp only [Bool.and_eq_true, decide_eq_true_eq, Bool.not_eq_true']
  constructor
  · rintro ⟨hc, hne⟩
    refine ⟨hc, ?_⟩
    have hnil : l.dropWhile (fun e => !goesBefore dfIn e) ≠ [] := by
      intro hcon
      rw [hcon] at hne
      simp at hne
    obtain ⟨e, he, hpe⟩ := dropWhile_ne_nil_iff.mp hnil
    exact ⟨e, he, by simpa using hpe⟩
  · rintro ⟨hc, e, he, hge⟩
    refine ⟨hc, ?_⟩
    have hnil : l.dropWhile (fun e => !goesBefore dfIn e) ≠ [] :=
      dropWhile_ne_nil_iff.mpr ⟨e, he, by simp [hge]⟩
    cases hdw : l.dropWhile (fun e => !goesBefore dfIn e) with
    | nil => exact absurd hdw hnil
    | cons x xs => simp

/-- Claim C1, amended: after any sequence of enqueue and dequeue operations,
every resident cluster head's rendered header decodes to delta 0, and every
other resident frame's header decodes to `(ts - ref) mod 2^16` where `ref`
is the timestamp of the nearest preceding cluster head in `pending` (or the
queue's `uEarliestClusterTimestamp` baseline if none precedes it), so that
reference plus decoded delta reproduces the frame's timestamp modulo 2^16
(exactly only when the difference fits in the 16-bit field). -/
theorem kvs_C1_delta_mod16_invariant (segLen : Nat) (hasAudio : Bool) (ops : List StreamOp) :
    deltaDecodeSpec (runOps segLen hasAudio ops).uEarliestClusterTimestamp
      (runOps segLen hasAudio ops).xDataFramePending :=
  deltaInvariant_decode _ _ (runOps_deltaInv segLen hasAudio ops)

/-- Claim C1 as stated is false: a single enqueue of a simple block at
t = 70000 into a fresh queue (baseline 0, no cluster head preceding it)
renders delta 70000 mod 2^16 = 4464, and baseline + decoded delta = 4464,
which does not reproduce the frame's timestamp 70000 exactly. -/
theorem kvs_C1_exact_reconstruction_fails :
    ((runOps 0 false [StreamOp.add
        { pData := 1, uDataLen := 5, uTimestampMs := 70000,
          xTrackType := TrackType.video, xClusterType := ClusterType.simpleBlock,
          bIsKeyFrame := true }]).xDataFramePending.map
        (fun f => (f.xDataFrameIn.xClusterType, f.xDataFrameIn.uTimestampMs,
          f.pMkvHdr.decodedDelta)) = [(ClusterType.simpleBlock, 70000, 4464)]) ∧
    (runOps 0 false [StreamOp.add
        { pData := 1, uDataLen := 5, uTimestampMs := 70000,
          xTrackType := TrackType.video, xClusterType := ClusterType.simpleBlock,
          bIsKeyFrame := true }]).uEarliestClusterTimestamp = 0 ∧
    0 + 4464 ≠ 70000 := by
  refine ⟨by decide, by decide, by decide⟩

/-- Claim C2: after every sequence of enqueues with arbitrary inputs the
pending list is sorted by timestamp ascending with video-track frames ahead
of other tracks at equal timestamps, and each enqueue places the new frame
immediately before the first existing frame `e` with `new.ts < e.ts` or
(`new.ts = e.ts` and the new frame is video), appending at the tail if no
such `e` exists. -/
theorem kvs_C2_ordering_invariant :
    (∀ (segLen : Nat) (hasAudio : Bool) (ins : List DataFrameIn),
      List.Pairwise dfLE
        ((runOps segLen hasAudio (ins.map StreamOp.add)).xDataFramePending.map
          (fun f => f.xDataFrameIn))) ∧
    (∀ (s : KvsStream) (dfIn : DataFrameIn),
      (addDataFrameLocked s dfIn).xDataFramePending.map (fun f => f.xDataFrameIn) =
        (s.xDataFramePending.takeWhile (fun e => !goesBefore dfIn e)).map
            (fun f => f.xDataFrameIn) ++
          dfIn :: (s.xDataFramePending.dropWhile (fun e => !goesBefore dfIn e)).map
            (fun f => f.xDataFrameIn)) := by
  constructor
  · intro segLen hasAudio ins
    exact foldl_applyOp_pairwise _ _ (by simp [streamInit])
  · exact addDataFrameLocked_map

/-- Claim C10: every query on a NULL stream handle returns its empty-queue
default without touching any state: `Kvs_streamIsEmpty(NULL)` is true,
`Kvs_streamAvailOnTrack(NULL, t)` is false for every track kind, and
`Kvs_streamPop(NULL)` / `Kvs_streamPeek(NULL)` return NULL with the (null)
stream unchanged. -/
theorem kvs_C10_null_queries (t : TrackType) (lockOk bPeek : Bool) :
    Kvs_streamIsEmpty none lockOk = true ∧
    Kvs_streamAvailOnTrack none t lockOk = false ∧
    Kvs_streamPopH none bPeek lockOk = (none, none) :=
  ⟨rfl, rfl, rfl⟩

/-- Claim C9: for every frame whose cluster kind is not a cluster head,
`Kvs_dataFrameAddTags` returns `KVS_ERRNO_NONE` immediately, leaving the
statics and the frame untouched and writing none of the four output
parameters, even when the output pointers are invalid; and the cluster-kind
test dereferences the handle before the NULL check, so a NULL handle hits
the dereference rather than the `InvalidArgument` path. -/
theorem kvs_C9_addTags_skips_non_cluster (g : TagGlobals) (f : DataFrame)
    (tagsList : List MkvTag) (endOfStream outPtrsValid : Bool)
    (hct : f.xDataFrameIn.xClusterType ≠ ClusterType.cluster) :
    Kvs_dataFrameAddTags g (some f) tagsList endOfStream outPtrsValid =
      { res := KvsRes.ok, globals := g, frame := some f,
        outWritten := false, freedPayload := false } ∧
    (Kvs_dataFrameAddTags g none tagsList endOfStream outPtrsValid).res =
      KvsRes.nullDereference := by
  constructor
  · simp [Kvs_dataFrameAddTags, hct]
  · rfl

/-- Claim C9 witness at a concrete simple-block frame with invalid output
pointers. -/
theorem kvs_C9_addTags_skips_non_cluster_witness :
    Kvs_dataFrameAddTags tagGlobalsInit (some dfltFrame) [] false false =
      { res := KvsRes.ok, globals := tagGlobalsInit, frame := some dfltFrame,
        outWritten := false, freedPayload := false } :=
  (kvs_C9_addTags_skips_non_cluster tagGlobalsInit dfltFrame [] false false (by decide)).1

/-- First cluster head of one queue instance ("queue A"). -/
def tagFrameA : DataFrame :=
  mkNewFrame
    { pData := 1, uDataLen := 4, uTimestampMs := 100, xTrackType := TrackType.video,
      xClusterType := ClusterType.cluster, bIsKeyFrame := true } 42 0

/-- First cluster head of an independent queue instance ("queue B"). -/
def tagFrameB : DataFrame :=
  mkNewFrame
    { pData := 2, uDataLen := 4, uTimestampMs := 0, xTrackType := TrackType.video,
      xClusterType := ClusterType.cluster, bIsKeyFrame := true } 42 0

/-- Claim C4 fails on the code: both injection decisions live in C `static`
(process-wide) variables, so independent queues interfere.  Evaluated here:
queue A's first cluster head is skipped; queue B's first cluster head,
processed alone in the process, is also skipped; but after A's call, B's
first cluster head IS injected (its header grows by the empty tags block
size 8, from 42 to 50).  Likewise `addTagsAtEnd` acts exactly once per
process: after queue A's call frees and replaces A's payload, queue B's
first (and only) trailing-injection call does nothing at all. -/
theorem kvs_C4_static_state_interference :
    (Kvs_dataFrameAddTags tagGlobalsInit (some tagFrameA) [] false true).frame =
      some tagFrameA ∧
    (Kvs_dataFrameAddTags tagGlobalsInit (some tagFrameB) [] false true).frame =
      some tagFrameB ∧
    ((Kvs_dataFrameAddTags
        (Kvs_dataFrameAddTags tagGlobalsInit (some tagFrameA) [] false true).globals
        (some tagFrameB) [] false true).frame.map (fun f => f.uMkvHdrLen)) = some 50 ∧
    (Kvs_dataFrameAddTags
        (Kvs_dataFrameAddTags tagGlobalsInit (some tagFrameA) [] false true).globals
        (some tagFrameB) [] false true).frame ≠ some tagFrameB ∧
    (addTagsAtEnd tagGlobalsInit (some tagFrameA) true [] true 77).freedPayload = true ∧
    (addTagsAtEnd (addTagsAtEnd tagGlobalsInit (some tagFrameA) true [] true 77).globals
        (some tagFrameB) true [] true 78).frame = some tagFrameB ∧
    (addTagsAtEnd (addTagsAtEnd tagGlobalsInit (some tagFrameA) true [] true 77).globals
        (some tagFrameB) true [] true 78).freedPayload = false := by
  refine ⟨by decide, by decide, by decide, by decide, by decide, by decide, by decide⟩

/-- Claim C8: `Kvs_streamMemStatTotal` fails with `InvalidArgument` and
writes nothing when the stream handle or the output pointer is NULL; on a
locked stream it returns success and writes exactly the queue's fixed
overhead plus the segment-header length plus, per resident frame, payload
length + fixed per-frame overhead + header length. -/
theorem kvs_C8_memstat (h : Option KvsStream) (outProvided lockOk : Bool) :
    ((h = none ∨ outProvided = false) →
      Kvs_streamMemStatTotal h outProvided lockOk = (KvsRes.invalidArgument, none)) ∧
    (∀ s : KvsStream, h = some s → outProvided = true → lockOk = true →
      Kvs_streamMemStatTotal h outProvided lockOk =
        (KvsRes.ok, some (kStreamRecordSize + s.uMkvEbmlSegLen +
          (s.xDataFramePending.map
            (fun f => f.xDataFrameIn.uDataLen + kDataFrameRecordSize + f.uMkvHdrLen)).sum))) := by
  constructor
  · rintro (rfl | rfl)
    · rfl
    · cases h with
      | none => rfl
      | some s => simp [Kvs_streamMemStatTotal]
  · rintro s rfl rfl rfl
    simp [Kvs_streamMemStatTotal, memTotalOf_eq]

/-- Descriptor of a concrete cluster-head frame with payload length 10,
used to exercise the memory-accounting formula. -/
def memFrameIn : DataFrameIn :=
  { pData := 0, uDataLen := 10, uTimestampMs := 0, xTrackType := TrackType.video,
    xClusterType := ClusterType.cluster, bIsKeyFrame := true }

/-- Claim C8 witness: a queue with segment-header length 7 and a single
cluster-head frame of payload length 10 accounts to
`kStreamRecordSize + 7 + (10 + kDataFrameRecordSize + 42)`. -/
theorem kvs_C8_memstat_witness :
    Kvs_streamMemStatTotal (some (runOps 7 false [StreamOp.add memFrameIn])) true true =
      (KvsRes.ok, some (kStreamRecordSize + 7 + (10 + kDataFrameRecordSize + 42))) := by
  have h := (kvs_C8_memstat (some (runOps 7 false [StreamOp.add memFrameIn]))
      true true).2 _ rfl rfl rfl
  rw [h]
  decide

/-- Claim C6: every failing input of `Kvs_streamAddDataFrame` (NULL stream,
NULL descriptor, unrecognized cluster kind with header length 0, allocation
failure, lock failure) returns a NULL handle and leaves the stream — its
pending list, baseline, and every resident header — exactly unchanged; a
successful call returns a handle, leaves the baseline unchanged, and links
exactly one frame, fully rendered from the enqueued descriptor, at the
insertion position. -/
theorem kvs_C6_enqueue_atomicity (h : Option KvsStream) (dfIn : Option DataFrameIn)
    (allocOk lockOk : Bool) :
    ((h = none ∨ dfIn = none ∨
        (∃ f, dfIn = some f ∧ Mkv_getClusterHdrLen f.xClusterType = 0) ∨
        allocOk = false ∨ lockOk = false) →
      Kvs_streamAddDataFrameH h dfIn allocOk lockOk = (h, false)) ∧
    (∀ (s : KvsStream) (f : DataFrameIn), h = some s → dfIn = some f →
        Mkv_getClusterHdrLen f.xClusterType ≠ 0 → allocOk = true → lockOk = true →
      Kvs_streamAddDataFrameH h dfIn allocOk lockOk = (some (addDataFrameLocked s f), true) ∧
      (addDataFrameLocked s f).uEarliestClusterTimestamp = s.uEarliestClusterTimestamp ∧
      (addDataFrameLocked s f).xDataFramePending.length = s.xDataFramePending.length + 1 ∧
      (addDataFrameLocked s f).xDataFramePending.map (fun fr => fr.xDataFrameIn) =
        (s.xDataFramePending.takeWhile (fun e => !goesBefore f e)).map
            (fun fr => fr.xDataFrameIn) ++
          f :: (s.xDataFramePending.dropWhile (fun e => !goesBefore f e)).map
            (fun fr => fr.xDataFrameIn) ∧
      ∃ d, hdrFor ((addDataFrameLocked s f).xDataFramePending.getD
            (s.xDataFramePending.takeWhile (fun e => !goesBefore f e)).length dfltFrame) d ∧
        ((addDataFrameLocked s f).xDataFramePending.getD
            (s.xDataFramePending.takeWhile (fun e => !goesBefore f e)).length
            dfltFrame).xDataFrameIn = f) := by
  constructor
  · intro hfail
    rcases hfail with rfl | rfl | ⟨f, rfl, h0⟩ | rfl | rfl
    · rfl
    · cases h with
      | none => rfl
      | some s => rfl
    · cases h with
      | none => rfl
      | some s => simp [Kvs_streamAddDataFrameH, h0]
    · cases h with
      | none => rfl
      | some s =>
        cases dfIn with
        | none => rfl
        | some f =>
          by_cases h0 : Mkv_getClusterHdrLen f.xClusterType = 0 <;>
            simp [Kvs_streamAddDataFrameH, h0]
    · cases h with
      | none => rfl
      | some s =>
        cases dfIn with
        | none => rfl
        | some f =>
          by_cases h0 : Mkv_getClusterHdrLen f.xClusterType = 0
          · simp [Kvs_streamAddDataFrameH, h0]
          · cases allocOk <;> simp [Kvs_streamAddDataFrameH, h0]
  · rintro s f rfl rfl h0 rfl rfl
    refine ⟨?_, rfl, addDataFrameLocked_length s f, addDataFrameLocked_map s f,
      addDataFrameLocked_new_frame s f⟩
    simp [Kvs_streamAddDataFrameH, h0]

/-- Claim C6 witness: a NULL descriptor on a fresh stream fails and leaves
the stream unchanged. -/
theorem kvs_C6_enqueue_atomicity_witness :
    Kvs_streamAddDataFrameH (some (streamInit 0 false)) none true true =
      (some (streamInit 0 false), false) :=
  (kvs_C6_enqueue_atomicity (some (streamInit 0 false)) none true true).1
    (Or.inr (Or.inl rfl))

/-- Claim C5: `uEarliestClusterTimestamp` advances only when a dequeue (not
a peek, not an enqueue) removes a cluster-head frame, becoming its
timestamp; peek leaves the entire state unchanged, dequeue of a non-cluster
head and enqueue leave the baseline unchanged; and a non-cluster frame
subsequently enqueued with no cluster head ahead of its insertion point is
rendered with delta relative to that baseline. -/
theorem kvs_C5_baseline_advance (s : KvsStream) (dfIn : DataFrameIn) :
    ((prvStreamPop s true).1 = s) ∧
    (∀ f rest, s.xDataFramePending = f :: rest → isCH f = true →
      (prvStreamPop s false).1.uEarliestClusterTimestamp = f.xDataFrameIn.uTimestampMs) ∧
    (∀ f rest, s.xDataFramePending = f :: rest → isCH f = false →
      (prvStreamPop s false).1.uEarliestClusterTimestamp = s.uEarliestClusterTimestamp) ∧
    ((addDataFrameLocked s dfIn).uEarliestClusterTimestamp = s.uEarliestClusterTimestamp) ∧
    ((∀ e ∈ s.xDataFramePending.takeWhile (fun e => !goesBefore dfIn e), isCH e = false) →
      dfIn.xClusterType ≠ ClusterType.cluster →
      (addDataFrameLocked s dfIn).xDataFramePending.getD
          (s.xDataFramePending.takeWhile (fun e => !goesBefore dfIn e)).length dfltFrame =
        mkNewFrame dfIn (Mkv_getClusterHdrLen dfIn.xClusterType)
          (deltaTimestamp dfIn.uTimestampMs s.uEarliestClusterTimestamp)) := by
  refine ⟨?_, ?_, ?_, rfl, ?_⟩
  · cases hl : s.xDataFramePending <;> simp [prvStreamPop, hl]
  · intro f rest hl hch
    simp [prvStreamPop, hl, hch]
  · intro f rest hl hch
    simp [prvStreamPop, hl, hch]
  · intro hall hct
    have hneed : (insertScan dfIn (Mkv_getClusterHdrLen dfIn.xClusterType)
        s.uEarliestClusterTimestamp s.xDataFramePending).2.1 = false := by
      rw [insertScan_eq]
      simp [hct]
    simp only [addDataFrameLocked, hneed, Bool.false_eq_true, if_false]
    rw [insertScan_getD_new, runningClusterTs_no_CH _ _ hall,
      if_neg (fun hcon => hct hcon.1)]

/-- Descriptor of a cluster-head frame at t = 7. -/
def chFrameIn7 : DataFrameIn :=
  { pData := 3, uDataLen := 1, uTimestampMs := 7, xTrackType := TrackType.video,
    xClusterType := ClusterType.cluster, bIsKeyFrame := true }

/-- Claim C5 witness: dequeuing the sole cluster head at t = 7 sets the
baseline to 7. -/
theorem kvs_C5_baseline_advance_witness :
    (prvStreamPop (runOps 0 false [StreamOp.add chFrameIn7]) false).1.uEarliestClusterTimestamp
      = (mkNewFrame chFrameIn7 42 7).xDataFrameIn.uTimestampMs :=
  (kvs_C5_baseline_advance (runOps 0 false [StreamOp.add chFrameIn7])
      chFrameIn7).2.1 (mkNewFrame chFrameIn7 42 7) [] (by decide) (by decide)

/-- The insert scan `Kvs_streamAddDataFrame` runs on its input (the scan of
stream.c:237-269 seeded with the queue baseline). -/
def scanOf (s : KvsStream) (dfIn : DataFrameIn) : List DataFrame × Bool × Nat :=
  insertScan dfIn (Mkv_getClusterHdrLen dfIn.xClusterType)
    s.uEarliestClusterTimestamp s.xDataFramePending

/-- Follows the spec's words for the correction pass (claim C3): in the
post-insertion list, a frame before the first cluster head is left
unchanged; a frame at or after the first cluster head is re-rendered with
delta = its timestamp minus the running cluster timestamp, i.e. the
timestamp of the last cluster head at or before it (so a cluster head gets
delta 0). -/
def correctionPassSpec (l : List DataFrame) (i : Nat) : DataFrame :=
  match lastCHts (l.take (i + 1)) with
  | none => l.getD i dfltFrame
  | some r =>
      rerenderFrame (l.getD i dfltFrame)
        (deltaTimestamp (l.getD i dfltFrame).xDataFrameIn.uTimestampMs r)

/-- Claim C3: the correction pass runs exactly when a cluster head was
inserted anywhere but the tail (first conjunct characterizes the flag); with
no mid-list cluster-head insertion the pending list is exactly the scanned
list, all pre-existing headers untouched; otherwise the result is the single
full forward pass over the inserted list: frames before the first cluster
head unchanged, every frame from the first cluster head on re-rendered
against the running cluster timestamp. -/
theorem kvs_C3_correction_pass (s : KvsStream) (dfIn : DataFrameIn) :
    ((scanOf s dfIn).2.1 = true ↔
      dfIn.xClusterType = ClusterType.cluster ∧
        ∃ e ∈ s.xDataFramePending, goesBefore dfIn e = true) ∧
    ((scanOf s dfIn).2.1 = false →
      (addDataFrameLocked s dfIn).xDataFramePending = (scanOf s dfIn).1) ∧
    ((scanOf s dfIn).2.1 = true →
      (addDataFrameLocked s dfIn).xDataFramePending.length = (scanOf s dfIn).1.length ∧
      ∀ i, i < (scanOf s dfIn).1.length →
        (addDataFrameLocked s dfIn).xDataFramePending.getD i dfltFrame =
          correctionPassSpec (scanOf s dfIn).1 i) := by
  refine ⟨insertScan_need_iff dfIn _ _ _, ?_, ?_⟩
  · intro hb
    have hb' : (insertScan dfIn (Mkv_getClusterHdrLen dfIn.xClusterType)
        s.uEarliestClusterTimestamp s.xDataFramePending).2.1 = false := hb
    simp only [addDataFrameLocked, hb', Bool.false_eq_true, if_false]
    rfl
  · intro hb
    have hb' : (insertScan dfIn (Mkv_getClusterHdrLen dfIn.xClusterType)
        s.uEarliestClusterTimestamp s.xDataFramePending).2.1 = true := hb
    constructor
    · simp only [addDataFrameLocked, hb', if_true]
      exact correctScan_length _ _ _
    · intro i hi
      have hi' : i < ((insertScan dfIn (Mkv_getClusterHdrLen dfIn.xClusterType)
          s.uEarliestClusterTimestamp s.xDataFramePending).1).length := hi
      simp only [addDataFrameLocked, hb', if_true]
      rw [correctScan_false_getD _ _ _ hi']
      rfl

/-- Descriptor of a simple block at t = 20 on the video track. -/
def simpleIn20 : DataFrameIn :=
  { pData := 4, uDataLen := 2, uTimestampMs := 20, xTrackType := TrackType.video,
    xClusterType := ClusterType.simpleBlock, bIsKeyFrame := true }

/-- Descriptor of a cluster head at t = 0 on the video track. -/
def clusterIn0 : DataFrameIn :=
  { pData := 5, uDataLen := 2, uTimestampMs := 0, xTrackType := TrackType.video,
    xClusterType := ClusterType.cluster, bIsKeyFrame := true }

/-- Claim C3 witness: inserting the t = 0 cluster head ahead of the resident
t = 20 simple block triggers the pass; the corrected list has the scanned
list's length. -/
theorem kvs_C3_correction_pass_witness :
    (addDataFrameLocked (runOps 0 false [StreamOp.add simpleIn20])
        clusterIn0).xDataFramePending.length =
      (scanOf (runOps 0 false [StreamOp.add simpleIn20]) clusterIn0).1.length :=
  ((kvs_C3_correction_pass (runOps 0 false [StreamOp.add simpleIn20]) clusterIn0).2.2
    (by decide)).1

/-- Claim C7, amended: `Kvs_dataFrameTerminate` frees only the frame record
together with its in-record header storage, never the payload; the boundary
tag injection never frees a payload; queue operations never invent or alter
resident payload views; but the trailing injection `addTagsAtEnd`, on its
single acting call, appends the tags block to the final frame's payload and
in doing so frees the prior payload buffer, replacing it with the freshly
allocated one — it is the one exception to "the queue never frees
`payload`". -/
theorem kvs_C7_payload_ownership :
    (∀ f : DataFrame, Kvs_dataFrameTerminateFrees (some f) =
        { frameRecordAndHdr := true, payload := false }) ∧
    (∀ (g : TagGlobals) (h : Option DataFrame) (tags : List MkvTag) (eos valid : Bool),
        (Kvs_dataFrameAddTags g h tags eos valid).freedPayload = false) ∧
    (∀ (g : TagGlobals) (f : DataFrame) (tags : List MkvTag) (newBufId : Nat),
        g.calledAlready = false →
        (addTagsAtEnd g (some f) true tags true newBufId).freedPayload = true ∧
        (addTagsAtEnd g (some f) true tags true newBufId).frame =
          some { f with xDataFrameIn := { f.xDataFrameIn with
            pData := newBufId,
            uDataLen := f.xDataFrameIn.uDataLen +
              Mkv_tagsHdrSize (tags ++ [endOfFragmentTag]) } }) ∧
    (∀ (g : TagGlobals) (h : Option DataFrame) (tagsProvided : Bool) (tags : List MkvTag)
        (valid : Bool) (newBufId : Nat), g.calledAlready = true →
        (addTagsAtEnd g h tagsProvided tags valid newBufId).freedPayload = false) ∧
    (∀ (s : KvsStream) (op : StreamOp) (f' : DataFrame),
        f' ∈ (applyOp s op).xDataFramePending →
        (∃ f ∈ s.xDataFramePending, f'.xDataFrameIn = f.xDataFrameIn) ∨
          (∃ dfIn, op = StreamOp.add dfIn ∧ f'.xDataFrameIn = dfIn)) := by
  refine ⟨fun f => rfl, ?_, ?_, ?_, applyOp_payload_origin⟩
  · intro g h tags eos valid
    cases h with
    | none => rfl
    | some f =>
      simp only [Kvs_dataFrameAddTags]
      split <;> try rfl
      split <;> try rfl
      split <;> rfl
  · intro g f tags newBufId hg
    constructor <;> simp [addTagsAtEnd, hg]
  · intro g h tagsProvided tags valid newBufId hg
    cases h with
    | none => rfl
    | some f =>
      simp only [addTagsAtEnd, hg]
      split <;> rfl

/-- Claim C7 is false as stated: the trailing tag injection frees the prior
payload buffer of the frame it operates on (stream.c:720) and installs the
newly allocated combined buffer. -/
theorem kvs_C7_payload_free_counterexample :
    (addTagsAtEnd tagGlobalsInit (some dfltFrame) true [] true 99).freedPayload = true ∧
    (addTagsAtEnd tagGlobalsInit (some dfltFrame) true [] true 99).frame.map
        (fun f => f.xDataFrameIn.pData) = some 99 := by
  refine ⟨by decide, by decide⟩

/-- Claim C7 witness: the acting trailing-injection call on a fresh process
frees the prior payload buffer. -/
theorem kvs_C7_payload_ownership_witness :
    (addTagsAtEnd tagGlobalsInit (some dfltFrame) true [] true 5).freedPayload = true :=
  (kvs_C7_payload_ownership.2.2.1 tagGlobalsInit dfltFrame [] 5 rfl).1
